import Mathlib

/-!
Verification of the WorkZen HRMS payroll core
(`backend/utils/calculations.py`).

The Python module is shallowly embedded here:

* money amounts (Python floats) become rationals `ℚ`;
* `round(x, n)` (Python's round-half-to-even) becomes `roundTo n`;
* `datetime.date` becomes the `CalDate` structure ordered
  lexicographically, `calendar.monthrange` becomes `daysInMonth`, and
  `date.weekday()` becomes `weekday`, computed from the proleptic
  Gregorian ordinal exactly as CPython does (ordinal 1 = 0001-01-01,
  a Monday, and `weekday = (ordinal - 1) % 7` with Monday = 0);
* the SQLAlchemy session becomes an explicit `AttendanceStore` value
  (the list of `Attendance` rows); the read-only SELECT issued by
  `get_attended_days` becomes `query_attendance`, which returns the
  matching rows together with the (unchanged) store, and the store is
  threaded through `calculate_payroll` so that statements about
  mutation of the store can be expressed.
-/

/-- Round-half-to-even ("banker's rounding") to an integer, the tie
behaviour of Python's builtin `round`. -/
def rnd (x : ℚ) : ℤ :=
  if Int.fract x < 1/2 then ⌊x⌋
  else if 1/2 < Int.fract x then ⌊x⌋ + 1
  else if ⌊x⌋ % 2 = 0 then ⌊x⌋ else ⌊x⌋ + 1

/-- Python's `round(x, n)` for a non-negative number of decimal digits. -/
def roundTo (n : ℕ) (x : ℚ) : ℚ :=
  (rnd (x * 10 ^ n) : ℚ) / 10 ^ n

/-- A calendar date, as `datetime.date`. -/
structure CalDate where
  year : ℕ
  month : ℕ
  day : ℕ
deriving DecidableEq

/-- `datetime.date` ordering: lexicographic on (year, month, day). -/
def CalDate.ble (a b : CalDate) : Bool :=
  a.year < b.year ||
    (a.year == b.year &&
      (a.month < b.month || (a.month == b.month && a.day ≤ b.day)))

/-- Gregorian leap-year rule (as used by `calendar.monthrange`). -/
def isLeapYear (y : ℕ) : Bool :=
  (y % 4 == 0 && y % 100 != 0) || y % 400 == 0

/-- Number of days of month `m` of year `y`
(`calendar.monthrange(y, m)[1]`); `0` for an out-of-range month, where
the Python library raises instead. -/
def daysInMonth (y m : ℕ) : ℕ :=
  match m with
  | 1 => 31
  | 2 => if isLeapYear y then 29 else 28
  | 3 => 31
  | 4 => 30
  | 5 => 31
  | 6 => 30
  | 7 => 31
  | 8 => 31
  | 9 => 30
  | 10 => 31
  | 11 => 30
  | 12 => 31
  | _ => 0

/-- Days in all years before year `y` of the proleptic Gregorian
calendar (CPython's `_days_before_year`). -/
def daysBeforeYear (y : ℕ) : ℕ :=
  365 * (y - 1) + (y - 1) / 4 - (y - 1) / 100 + (y - 1) / 400

/-- Days of year `y` lying in months strictly before month `m`
(CPython's `_days_before_month`). -/
def daysBeforeMonth (y m : ℕ) : ℕ :=
  ((List.range (m - 1)).map (fun i => daysInMonth y (i + 1))).sum

/-- `datetime.date(y, m, d).toordinal()`. -/
def toOrdinal (y m d : ℕ) : ℕ :=
  daysBeforeYear y + daysBeforeMonth y m + d

/-- `datetime.date(y, m, d).weekday()`: Monday = 0, ..., Sunday = 6. -/
def weekday (y m d : ℕ) : ℕ :=
  (toOrdinal y m d - 1) % 7

/-- `calculate_professional_tax` from `calculations.py`: the slab
ladder 0 / 150 / 200 with inclusive upper bounds 10000 and 30000. -/
def calculate_professional_tax (salary : ℚ) : ℚ :=
  if salary ≤ 10000 then 0
  else if salary ≤ 30000 then 150
  else 200

/-- `get_working_days` from `calculations.py`: loop over the days of
the month, counting those whose weekday is Monday..Friday (< 5). -/
def get_working_days (year month : ℕ) : ℕ :=
  (List.range (daysInMonth year month)).foldl
    (fun wd i => if weekday year month (i + 1) < 5 then wd + 1 else wd) 0

/-- `models.AttendanceStatus`. -/
inductive AttendanceStatus where
  | PRESENT
  | ABSENT
  | HALF_DAY
deriving DecidableEq

/-- A row of the `attendance` table (the fields read by the payroll
core). -/
structure Attendance where
  employee_id : ℕ
  date : CalDate
  status : AttendanceStatus
deriving DecidableEq

/-- The attendance table reachable through the SQLAlchemy session. -/
abbrev AttendanceStore := List Attendance

/-- The filter of the query in `get_attended_days`: rows of the given
employee whose date lies in `[first day, last day]` of the month. -/
def attendanceInMonth (employee_id year month : ℕ) (r : Attendance) : Bool :=
  r.employee_id == employee_id &&
    CalDate.ble ⟨year, month, 1⟩ r.date &&
    CalDate.ble r.date ⟨year, month, daysInMonth year month⟩

/-- The read `db.query(Attendance).filter(...).all()`: a SELECT returns
the matching rows and leaves the store unchanged. -/
def query_attendance (employee_id year month : ℕ) (s : AttendanceStore) :
    List Attendance × AttendanceStore :=
  (s.filter (attendanceInMonth employee_id year month), s)

/-- `get_attended_days` from `calculations.py`: Present += 1.0,
Half Day += 0.5, Absent += 0. -/
def get_attended_days (employee_id year month : ℕ) (s : AttendanceStore) :
    ℚ × AttendanceStore :=
  let q := query_attendance employee_id year month s
  (q.1.foldl
    (fun acc r =>
      match r.status with
      | .PRESENT => acc + 1
      | .HALF_DAY => acc + 1/2
      | .ABSENT => acc) 0,
   q.2)

/-- `apply_attendance_adjustment` from `calculations.py`. -/
def apply_attendance_adjustment (gross_salary : ℚ) (working_days : ℕ)
    (attended_days : ℚ) : ℚ :=
  if working_days = 0 then 0
  else roundTo 2 (gross_salary * (attended_days / (working_days : ℚ)))

/-- The compensation fields of the `Employee` model used by the core. -/
structure Employee where
  id : ℕ
  basic_salary : ℚ
  allowances : ℚ

/-- The dictionary returned by `calculate_payroll`. -/
structure PayrollBreakdown where
  basic_salary : ℚ
  allowances : ℚ
  gross_salary : ℚ
  pf_contribution : ℚ
  professional_tax : ℚ
  net_salary : ℚ
  working_days : ℕ
  attended_days : ℚ
  attendance_ratio : ℚ
deriving DecidableEq

/-- `calculate_payroll` from `calculations.py`, with the session
threaded through (the only session access is the read inside
`get_attended_days`). -/
def calculate_payroll (employee : Employee) (year month : ℕ)
    (db : AttendanceStore) : PayrollBreakdown × AttendanceStore :=
  let basic_salary := employee.basic_salary
  let allowances := employee.allowances
  let gross_salary := basic_salary + allowances
  let professional_tax := calculate_professional_tax basic_salary
  let working_days := get_working_days year month
  let ad := get_attended_days employee.id year month db
  let attended_days := ad.1
  let adjusted_gross :=
    apply_attendance_adjustment gross_salary working_days attended_days
  let attendance_ratio :=
    if 0 < working_days then attended_days / (working_days : ℚ) else 0
  let adjusted_basic := basic_salary * attendance_ratio
  let adjusted_pf := adjusted_basic * (12/100)
  let final_prof_tax := if 0 < attended_days then professional_tax else 0
  let net_salary := adjusted_gross - adjusted_pf - final_prof_tax
  ({ basic_salary := roundTo 2 basic_salary
     allowances := roundTo 2 allowances
     gross_salary := roundTo 2 adjusted_gross
     pf_contribution := roundTo 2 adjusted_pf
     professional_tax := roundTo 2 final_prof_tax
     net_salary := roundTo 2 net_salary
     working_days := working_days
     attended_days := attended_days
     attendance_ratio := roundTo 3 attendance_ratio },
   ad.2)

/-- `validate_payroll_data` from `calculations.py`. -/
def validate_payroll_data (basic_salary allowances : ℚ) : Bool × String :=
  if basic_salary < 0 then (false, "Basic salary cannot be negative")
  else if allowances < 0 then (false, "Allowances cannot be negative")
  else if basic_salary = 0 then (false, "Basic salary must be greater than zero")
  else (true, "")

/-- The weight each attendance status contributes to `attendedDays`. -/
def statusWeight : AttendanceStatus → ℚ
  | .PRESENT => 1
  | .HALF_DAY => 1/2
  | .ABSENT => 0

/-- Weekday tally over `n` consecutive days, the first falling on
weekday `b`; only `b % 7` matters. -/
def weekdayCount (b n : ℕ) : ℕ :=
  (List.range n).countP (fun i => decide ((b + i) % 7 < 5))

/-- Test vector: employee 1 with basic 30000 and allowances 5000. -/
def exampleEmployee : Employee := ⟨1, 30000, 5000⟩

/-- Test vector: employee 1 Present on 1..22 January 2025. -/
def januaryPresence22 : AttendanceStore :=
  (List.range 22).map (fun i => ⟨1, ⟨2025, 1, i + 1⟩, .PRESENT⟩)

/-- Test vector: employee 1 Present on every day of February 2025,
weekends included. -/
def februaryPresence28 : AttendanceStore :=
  (List.range 28).map (fun i => ⟨1, ⟨2025, 2, i + 1⟩, .PRESENT⟩)

/-- Test vector: a store holding only an Absent mark. -/
def absentOnlyStore : AttendanceStore := [⟨2, ⟨2025, 1, 6⟩, .ABSENT⟩]

/-- Test vector: two attendance rows of January 2025. -/
def permStoreA : AttendanceStore :=
  [⟨1, ⟨2025, 1, 2⟩, .PRESENT⟩, ⟨1, ⟨2025, 1, 3⟩, .HALF_DAY⟩]

/-- `permStoreA` with the two rows swapped. -/
def permStoreB : AttendanceStore :=
  [⟨1, ⟨2025, 1, 3⟩, .HALF_DAY⟩, ⟨1, ⟨2025, 1, 2⟩, .PRESENT⟩]

/-- Test vector: employee 1 with basic 1541/176 and allowances
7521/4400, chosen so that with 22 of 23 days attended the prorated PF
is exactly 1.005 — a half-cent tie. -/
def tieEmployee : Employee := ⟨1, 1541/176, 7521/4400⟩

lemma fract_eq (x : ℚ) : Int.fract x = x - ⌊x⌋ := rfl

lemma rnd_intCast (n : ℤ) : rnd (n : ℚ) = n := by
  unfold rnd
  simp [Int.fract_intCast, Int.floor_intCast]

lemma floor_le_rnd (x : ℚ) : ⌊x⌋ ≤ rnd x := by
  unfold rnd
  split_ifs <;> omega

lemma rnd_le_floor_add_one (x : ℚ) : rnd x ≤ ⌊x⌋ + 1 := by
  unfold rnd
  split_ifs <;> omega

lemma sub_half_le_rnd (x : ℚ) : x - 1/2 ≤ (rnd x : ℚ) := by
  have hfr : Int.fract x = x - ⌊x⌋ := rfl
  have hlt : Int.fract x < 1 := Int.fract_lt_one x
  have hle : (0:ℚ) ≤ Int.fract x := Int.fract_nonneg x
  unfold rnd
  split_ifs with h1 h2 h3 <;> push_cast <;> linarith

lemma rnd_le_add_half (x : ℚ) : (rnd x : ℚ) ≤ x + 1/2 := by
  have hfr : Int.fract x = x - ⌊x⌋ := rfl
  have hlt : Int.fract x < 1 := Int.fract_lt_one x
  have hle : (0:ℚ) ≤ Int.fract x := Int.fract_nonneg x
  unfold rnd
  split_ifs with h1 h2 h3 <;> push_cast <;> linarith

lemma rnd_nonneg {x : ℚ} (h : -(1/2) ≤ x) : 0 ≤ rnd x := by
  rcases le_or_lt 0 x with hx | hx
  · exact le_trans (Int.floor_nonneg.mpr hx) (floor_le_rnd x)
  · have hfl : ⌊x⌋ = -1 := by
      apply Int.floor_eq_iff.mpr
      constructor <;> push_cast <;> linarith
    have hfr : Int.fract x = x + 1 := by
      rw [fract_eq, hfl]; push_cast; ring
    unfold rnd
    rw [hfl, hfr]
    split_ifs with h1 h2 h3 <;> first | omega | linarith

lemma half_key (n : ℕ) : (1 / (2 * 10 ^ n) : ℚ) * 10 ^ n = 1/2 := by
  have hp : (10:ℚ) ^ n ≠ 0 := by positivity
  field_simp
  ring

lemma roundTo_le (n : ℕ) (x : ℚ) : x - 1 / (2 * 10 ^ n) ≤ roundTo n x := by
  have h := sub_half_le_rnd (x * 10 ^ n)
  have hp : (0:ℚ) < 10 ^ n := by positivity
  rw [roundTo, le_div_iff₀ hp]
  have expand : (x - 1 / (2 * 10 ^ n)) * 10 ^ n
      = x * 10 ^ n - (1 / (2 * 10 ^ n) * 10 ^ n) := by ring
  rw [expand, half_key]
  exact h

lemma roundTo_ge (n : ℕ) (x : ℚ) : roundTo n x ≤ x + 1 / (2 * 10 ^ n) := by
  have h := rnd_le_add_half (x * 10 ^ n)
  have hp : (0:ℚ) < 10 ^ n := by positivity
  rw [roundTo, div_le_iff₀ hp]
  have expand : (x + 1 / (2 * 10 ^ n)) * 10 ^ n
      = x * 10 ^ n + (1 / (2 * 10 ^ n) * 10 ^ n) := by ring
  rw [expand, half_key]
  exact h

lemma roundTo_nonneg {n : ℕ} {x : ℚ} (h : -(1 / (2 * 10 ^ n)) ≤ x) :
    0 ≤ roundTo n x := by
  have hp : (0:ℚ) < 10 ^ n := by positivity
  have hx : -(1/2) ≤ x * 10 ^ n := by
    rw [neg_le, ← neg_mul]
    calc -x * 10 ^ n ≤ (1 / (2 * 10 ^ n)) * 10 ^ n := by
          apply mul_le_mul_of_nonneg_right _ (le_of_lt hp)
          linarith
      _ = 1/2 := half_key n
  have h0 : (0:ℤ) ≤ rnd (x * 10 ^ n) := rnd_nonneg hx
  rw [roundTo]
  positivity

lemma roundTo_intCast_mul (n : ℕ) (k : ℤ) :
    roundTo n ((k : ℚ) / 10 ^ n) = (k : ℚ) / 10 ^ n := by
  have hp : (0:ℚ) < 10 ^ n := by positivity
  rw [roundTo, div_mul_cancel₀ _ (ne_of_gt hp), rnd_intCast]

lemma roundTo_idem (n : ℕ) (x : ℚ) :
    roundTo n (roundTo n x) = roundTo n x := by
  have hdef : roundTo n x = ((rnd (x * 10 ^ n) : ℚ)) / 10 ^ n := rfl
  rw [hdef, roundTo_intCast_mul]

lemma roundTo_zero (n : ℕ) : roundTo n 0 = 0 := by
  have : ((0:ℤ) : ℚ) / 10 ^ n = 0 := by norm_num
  have h := roundTo_intCast_mul n 0
  rw [this] at h
  exact h

lemma foldl_count (P : ℕ → Prop) [DecidablePred P] (l : List ℕ) (n : ℕ) :
    l.foldl (fun acc i => if P i then acc + 1 else acc) n
      = n + l.countP (fun i => decide (P i)) := by
  induction l generalizing n with
  | nil => simp
  | cons a t ih =>
    by_cases h : P a
    · simp [List.countP_cons, h, ih]
      omega
    · simp [List.countP_cons, h, ih]

lemma weekdayCount_le : ∀ b < 7, ∀ n ≤ 31, weekdayCount b n ≤ 23 := by decide

lemma weekdayCount_ge : ∀ b < 7, ∀ n ≤ 31, 28 ≤ n → 20 ≤ weekdayCount b n := by
  decide

lemma get_working_days_eq_weekdayCount (y m : ℕ) :
    get_working_days y m
      = weekdayCount ((daysBeforeYear y + daysBeforeMonth y m) % 7)
          (daysInMonth y m) := by
  unfold get_working_days weekdayCount
  rw [foldl_count, Nat.zero_add]
  apply List.countP_congr
  intro i _
  have key : (daysBeforeYear y + daysBeforeMonth y m + (i + 1) - 1) % 7
      = ((daysBeforeYear y + daysBeforeMonth y m) % 7 + i) % 7 := by omega
  simp only [weekday, toOrdinal, key]

lemma daysInMonth_bounds (y m : ℕ) (h1 : 1 ≤ m) (h2 : m ≤ 12) :
    28 ≤ daysInMonth y m ∧ daysInMonth y m ≤ 31 := by
  interval_cases m <;>
    · simp only [daysInMonth]
      try split_ifs
      all_goals norm_num

lemma get_working_days_le (y m : ℕ) (h1 : 1 ≤ m) (h2 : m ≤ 12) :
    get_working_days y m ≤ 23 := by
  rw [get_working_days_eq_weekdayCount]
  exact weekdayCount_le _ (Nat.mod_lt _ (by norm_num)) _
    (daysInMonth_bounds y m h1 h2).2

lemma get_working_days_ge (y m : ℕ) (h1 : 1 ≤ m) (h2 : m ≤ 12) :
    20 ≤ get_working_days y m := by
  rw [get_working_days_eq_weekdayCount]
  exact weekdayCount_ge _ (Nat.mod_lt _ (by norm_num)) _
    (daysInMonth_bounds y m h1 h2).2 (daysInMonth_bounds y m h1 h2).1

lemma get_working_days_pos (y m : ℕ) (h1 : 1 ≤ m) (h2 : m ≤ 12) :
    0 < get_working_days y m :=
  lt_of_lt_of_le (by norm_num) (get_working_days_ge y m h1 h2)

lemma attended_foldl (l : List Attendance) (acc : ℚ) :
    l.foldl
      (fun acc r =>
        match r.status with
        | .PRESENT => acc + 1
        | .HALF_DAY => acc + 1/2
        | .ABSENT => acc) acc
      = acc + (l.map (fun r => statusWeight r.status)).sum := by
  induction l generalizing acc with
  | nil => simp
  | cons a t ih =>
    have hstep : (match a.status with
        | AttendanceStatus.PRESENT => acc + 1
        | AttendanceStatus.HALF_DAY => acc + 1/2
        | AttendanceStatus.ABSENT => acc) = acc + statusWeight a.status := by
      cases a.status <;> simp [statusWeight]
    simp only [List.foldl_cons]
    rw [hstep, ih, List.map_cons, List.sum_cons]
    ring

lemma get_attended_days_eq (eid y m : ℕ) (s : AttendanceStore) :
    (get_attended_days eid y m s).1
      = ((s.filter (attendanceInMonth eid y m)).map
          (fun r => statusWeight r.status)).sum := by
  simp only [get_attended_days, query_attendance]
  rw [attended_foldl]
  ring

lemma get_attended_days_store (eid y m : ℕ) (s : AttendanceStore) :
    (get_attended_days eid y m s).2 = s := rfl

lemma weight_sum_half (l : List Attendance) :
    ∃ k : ℕ, ((l.map (fun r => statusWeight r.status)).sum : ℚ) = k/2 := by
  induction l with
  | nil => exact ⟨0, by simp⟩
  | cons a t ih =>
    obtain ⟨k, hk⟩ := ih
    rw [List.map_cons, List.sum_cons, hk]
    cases h : a.status
    · refine ⟨k + 2, ?_⟩
      rw [show statusWeight AttendanceStatus.PRESENT = 1 from rfl]
      push_cast
      ring
    · refine ⟨k, ?_⟩
      rw [show statusWeight AttendanceStatus.ABSENT = 0 from rfl]
      ring
    · refine ⟨k + 1, ?_⟩
      rw [show statusWeight AttendanceStatus.HALF_DAY = 1/2 from rfl]
      push_cast
      ring

lemma attended_half (eid y m : ℕ) (s : AttendanceStore) :
    ∃ k : ℕ, (get_attended_days eid y m s).1 = k/2 := by
  rw [get_attended_days_eq]
  exact weight_sum_half _

lemma attended_nonneg (eid y m : ℕ) (s : AttendanceStore) :
    0 ≤ (get_attended_days eid y m s).1 := by
  obtain ⟨k, hk⟩ := attended_half eid y m s
  rw [hk]
  positivity

lemma attended_pos_ge_half (eid y m : ℕ) (s : AttendanceStore)
    (h : 0 < (get_attended_days eid y m s).1) :
    1/2 ≤ (get_attended_days eid y m s).1 := by
  obtain ⟨k, hk⟩ := attended_half eid y m s
  rw [hk] at h ⊢
  have hk1 : 1 ≤ k := by
    by_contra hc
    push_neg at hc
    interval_cases k
    norm_num at h
  have : (1:ℚ) ≤ (k:ℚ) := by exact_mod_cast hk1
  linarith

lemma payroll_net_eq (e : Employee) (y m : ℕ) (db : AttendanceStore) :
    (calculate_payroll e y m db).1.net_salary
      = roundTo 2
          (apply_attendance_adjustment (e.basic_salary + e.allowances)
              (get_working_days y m) (get_attended_days e.id y m db).1
            - e.basic_salary
                * (if 0 < get_working_days y m then
                    (get_attended_days e.id y m db).1 / (get_working_days y m : ℚ)
                  else 0)
                * (12/100)
            - (if 0 < (get_attended_days e.id y m db).1 then
                calculate_professional_tax e.basic_salary
              else 0)) := rfl

lemma payroll_gross_eq (e : Employee) (y m : ℕ) (db : AttendanceStore) :
    (calculate_payroll e y m db).1.gross_salary
      = roundTo 2
          (apply_attendance_adjustment (e.basic_salary + e.allowances)
            (get_working_days y m) (get_attended_days e.id y m db).1) := rfl

lemma payroll_pf_eq (e : Employee) (y m : ℕ) (db : AttendanceStore) :
    (calculate_payroll e y m db).1.pf_contribution
      = roundTo 2
          (e.basic_salary
            * (if 0 < get_working_days y m then
                (get_attended_days e.id y m db).1 / (get_working_days y m : ℚ)
              else 0)
            * (12/100)) := rfl

lemma payroll_tax_eq (e : Employee) (y m : ℕ) (db : AttendanceStore) :
    (calculate_payroll e y m db).1.professional_tax
      = roundTo 2 (if 0 < (get_attended_days e.id y m db).1 then
          calculate_professional_tax e.basic_salary else 0) := rfl

lemma payroll_store_eq (e : Employee) (y m : ℕ) (db : AttendanceStore) :
    (calculate_payroll e y m db).2 = db := rfl

lemma roundTo2_of_tax (b : ℚ) :
    roundTo 2 (calculate_professional_tax b) = calculate_professional_tax b := by
  unfold calculate_professional_tax
  split_ifs
  · exact roundTo_zero 2
  · have h := roundTo_intCast_mul 2 15000
    norm_num at h
    exact h
  · have h := roundTo_intCast_mul 2 20000
    norm_num at h
    exact h

lemma tax_nonneg (b : ℚ) : 0 ≤ calculate_professional_tax b := by
  unfold calculate_professional_tax
  split_ifs <;> norm_num

/-- Core inequality: under the validator's preconditions and a valid
month, the net salary computed by `calculate_payroll` is never
negative (the fixed tax slabs start only above basic 10000, and even
the smallest positive attendance, half a day out of at most 23 working
days, then pushes the prorated gross above PF + tax). -/
lemma net_nonneg (e : Employee) (y m : ℕ) (db : AttendanceStore)
    (hb : 0 < e.basic_salary) (ha : 0 ≤ e.allowances)
    (hm1 : 1 ≤ m) (hm2 : m ≤ 12) :
    0 ≤ (calculate_payroll e y m db).1.net_salary := by
  rw [payroll_net_eq]
  set b := e.basic_salary with hbdef
  set a := e.allowances with hadef
  set wd := get_working_days y m with hwddef
  set att := (get_attended_days e.id y m db).1 with hattdef
  have hwdpos : 0 < wd := get_working_days_pos y m hm1 hm2
  have hwd23 : wd ≤ 23 := get_working_days_le y m hm1 hm2
  have hattnn : 0 ≤ att := attended_nonneg _ _ _ _
  rcases eq_or_lt_of_le hattnn with h0 | hpos
  · rw [← h0, if_pos hwdpos]
    unfold apply_attendance_adjustment
    rw [if_neg (by omega : ¬ wd = 0)]
    norm_num [roundTo_zero]
  · have hhalf : 1/2 ≤ att := attended_pos_ge_half _ _ _ _ hpos
    rw [if_pos hwdpos, if_pos hpos]
    unfold apply_attendance_adjustment
    rw [if_neg (by omega : ¬ wd = 0)]
    set r : ℚ := att / (wd : ℚ) with hrdef
    have hwdQ1 : (1:ℚ) ≤ (wd : ℚ) := by exact_mod_cast hwdpos
    have hwdQ23 : (wd : ℚ) ≤ 23 := by exact_mod_cast hwd23
    have hwdQpos : (0:ℚ) < (wd : ℚ) := by linarith
    have hrge : 1/46 ≤ r := by
      rw [hrdef, le_div_iff₀ hwdQpos]
      linarith
    have hrpos : (0:ℚ) < r := lt_of_lt_of_le (by norm_num) hrge
    have hgr : (b + a) * r - 1/200 ≤ roundTo 2 ((b + a) * r) := by
      have h := roundTo_le 2 ((b + a) * r)
      norm_num at h
      linarith
    apply roundTo_nonneg
    have har : 0 ≤ a * r := mul_nonneg ha (le_of_lt hrpos)
    have hbr : 0 < b * r := mul_pos hb hrpos
    have hexp : (b + a) * r = b * r + a * r := by ring
    unfold calculate_professional_tax
    split_ifs with h1 h2
    · norm_num
      nlinarith [hgr, hexp]
    · have hb10 : (10000:ℚ) ≤ b := le_of_lt (not_le.mp h1)
      have hbr10 : 10000 * (1/46 : ℚ) ≤ b * r :=
        mul_le_mul hb10 hrge (by norm_num) (by linarith)
      norm_num at hgr ⊢
      nlinarith [hgr, hexp]
    · have hb30 : (30000:ℚ) ≤ b := le_of_lt (not_le.mp h2)
      have hbr30 : 30000 * (1/46 : ℚ) ≤ b * r :=
        mul_le_mul hb30 hrge (by norm_num) (by linarith)
      norm_num at hgr ⊢
      nlinarith [hgr, hexp]

lemma payroll_basic_eq (e : Employee) (y m : ℕ) (db : AttendanceStore) :
    (calculate_payroll e y m db).1.basic_salary
      = roundTo 2 e.basic_salary := rfl

lemma payroll_working_eq (e : Employee) (y m : ℕ) (db : AttendanceStore) :
    (calculate_payroll e y m db).1.working_days = get_working_days y m := rfl

lemma payroll_attended_eq (e : Employee) (y m : ℕ) (db : AttendanceStore) :
    (calculate_payroll e y m db).1.attended_days
      = (get_attended_days e.id y m db).1 := rfl

lemma payroll_rate_eq (e : Employee) (y m : ℕ) (db : AttendanceStore) :
    PayrollBreakdown.attendance_ratio (calculate_payroll e y m db).1
      = roundTo 3
          (if 0 < get_working_days y m then
            (get_attended_days e.id y m db).1 / (get_working_days y m : ℚ)
          else 0) := rfl

/-- The persisted net equals `round(grossSalary - adjustedPF -
professionalTax, 2)` built from the values the code actually uses: the
already-rounded adjusted gross (= the emitted `gross_salary`), the
**unrounded** prorated PF, and the emitted `professional_tax`. -/
lemma net_formula (e : Employee) (y m : ℕ) (db : AttendanceStore)
    (hm1 : 1 ≤ m) (hm2 : m ≤ 12) :
    (calculate_payroll e y m db).1.net_salary
      = roundTo 2
          ((calculate_payroll e y m db).1.gross_salary
            - e.basic_salary
                * ((get_attended_days e.id y m db).1 / (get_working_days y m : ℚ))
                * (12/100)
            - (calculate_payroll e y m db).1.professional_tax) := by
  have hwdpos : 0 < get_working_days y m := get_working_days_pos y m hm1 hm2
  have hX : roundTo 2
      (apply_attendance_adjustment (e.basic_salary + e.allowances)
        (get_working_days y m) (get_attended_days e.id y m db).1)
      = apply_attendance_adjustment (e.basic_salary + e.allowances)
          (get_working_days y m) (get_attended_days e.id y m db).1 := by
    unfold apply_attendance_adjustment
    rw [if_neg (by omega : ¬ get_working_days y m = 0)]
    exact roundTo_idem 2 _
  have hT : roundTo 2
      (if 0 < (get_attended_days e.id y m db).1 then
        calculate_professional_tax e.basic_salary else 0)
      = (if 0 < (get_attended_days e.id y m db).1 then
          calculate_professional_tax e.basic_salary else 0) := by
    split_ifs with h
    · exact roundTo2_of_tax e.basic_salary
    · exact roundTo_zero 2
  rw [payroll_net_eq, payroll_gross_eq, payroll_tax_eq, hX, hT,
    if_pos hwdpos]

lemma countP_range_eq_card_Icc (P : ℕ → Prop) [DecidablePred P] (n : ℕ) :
    (List.range n).countP (fun i => decide (P (i + 1)))
      = ((Finset.Icc 1 n).filter P).card := by
  induction n with
  | zero => simp
  | succ n ih =>
    have hIcc : Finset.Icc 1 (n + 1) = insert (n + 1) (Finset.Icc 1 n) := by
      ext x
      simp only [Finset.mem_Icc, Finset.mem_insert]
      omega
    have hnot : (n + 1) ∉ (Finset.Icc 1 n).filter P := by
      intro hmem
      rw [Finset.mem_filter, Finset.mem_Icc] at hmem
      have := hmem.1.2
      omega
    rw [List.range_succ, List.countP_append, hIcc, Finset.filter_insert]
    by_cases h : P (n + 1)
    · rw [if_pos h, Finset.card_insert_of_not_mem hnot, ← ih]
      simp [h]
    · rw [if_neg h, ← ih]
      simp [h]

lemma get_working_days_card (y m : ℕ) :
    get_working_days y m
      = ((Finset.Icc 1 (daysInMonth y m)).filter
          (fun d => weekday y m d < 5)).card := by
  unfold get_working_days
  rw [foldl_count, Nat.zero_add]
  exact countP_range_eq_card_Icc (fun d => weekday y m d < 5) (daysInMonth y m)

lemma attended_perm (eid y m : ℕ) (s t : AttendanceStore) (h : s.Perm t) :
    (get_attended_days eid y m s).1 = (get_attended_days eid y m t).1 := by
  rw [get_attended_days_eq, get_attended_days_eq]
  exact List.Perm.sum_eq ((h.filter _).map _)

/-- C1: for basic 30000 and allowances 5000 in January 2025 (23
working days) with 22 Present marks (attendedDays = 22),
`calculate_payroll` returns attendance ratio round(22/23, 3) = 0.957,
gross 33478.26, PF 3443.48, professional tax 150 (basic is exactly
30000, so the 200 slab does not apply) and net 29884.78. -/
theorem payroll_end_to_end_example :
    (calculate_payroll exampleEmployee 2025 1 januaryPresence22).1.working_days = 23 ∧
    (calculate_payroll exampleEmployee 2025 1 januaryPresence22).1.attended_days = 22 ∧
    PayrollBreakdown.attendance_ratio
        (calculate_payroll exampleEmployee 2025 1 januaryPresence22).1
      = roundTo 3 (22/23) ∧
    PayrollBreakdown.attendance_ratio
        (calculate_payroll exampleEmployee 2025 1 januaryPresence22).1
      = 957/1000 ∧
    (calculate_payroll exampleEmployee 2025 1 januaryPresence22).1.gross_salary
      = 3347826/100 ∧
    (calculate_payroll exampleEmployee 2025 1 januaryPresence22).1.pf_contribution
      = 344348/100 ∧
    (calculate_payroll exampleEmployee 2025 1 januaryPresence22).1.professional_tax
      = 150 ∧
    (calculate_payroll exampleEmployee 2025 1 januaryPresence22).1.net_salary
      = 2988478/100 := by
  have hwd : get_working_days 2025 1 = 23 := by decide
  norm_num [calculate_payroll, get_attended_days, query_attendance,
    exampleEmployee, januaryPresence22, attendanceInMonth, List.range_succ,
    CalDate.ble, daysInMonth, isLeapYear, hwd, apply_attendance_adjustment,
    calculate_professional_tax, roundTo, rnd, fract_eq]

/-- C2: the professional-tax stepper returns 0 for s ≤ 10000, 150 for
10000 < s ≤ 30000 and 200 for s > 30000; in particular 10000 ↦ 0,
10000.01 ↦ 150, 30000 ↦ 150, 30000.01 ↦ 200 and 45000 ↦ 200. -/
theorem professional_tax_stepper_spec (s : ℚ) :
    (s ≤ 10000 → calculate_professional_tax s = 0) ∧
    (10000 < s → s ≤ 30000 → calculate_professional_tax s = 150) ∧
    (30000 < s → calculate_professional_tax s = 200) ∧
    calculate_professional_tax 10000 = 0 ∧
    calculate_professional_tax (1000001/100) = 150 ∧
    calculate_professional_tax 30000 = 150 ∧
    calculate_professional_tax (3000001/100) = 200 ∧
    calculate_professional_tax 45000 = 200 := by
  unfold calculate_professional_tax
  refine ⟨fun h => by rw [if_pos h],
    fun h1 h2 => by rw [if_neg (by linarith), if_pos h2],
    fun h => by rw [if_neg (by linarith), if_neg (by linarith)],
    by norm_num, by norm_num, by norm_num, by norm_num, by norm_num⟩

/-- C2 witness: the stepper at the concrete salary 20000 (inside the
middle slab) returns 150. -/
theorem professional_tax_stepper_spec_witness :
    calculate_professional_tax 20000 = 150 :=
  (professional_tax_stepper_spec 20000).2.1 (by norm_num) (by norm_num)

/-- C6: `get_working_days` counts exactly the dates of the month whose
weekday is Monday..Friday (weekday < 5 in CPython's Monday = 0
convention), the last day coming from `daysInMonth` (Gregorian
month-lengths and leap years); in particular it returns 23 for
January 2025 and 20 for February 2025. -/
theorem working_days_spec (y m : ℕ) :
    get_working_days y m
      = ((Finset.Icc 1 (daysInMonth y m)).filter
          (fun d => weekday y m d < 5)).card ∧
    get_working_days 2025 1 = 23 ∧
    get_working_days 2025 2 = 20 :=
  ⟨get_working_days_card y m, by decide, by decide⟩

/-- C8: with the attendance store explicit, `calculate_payroll`
performs no write (the store comes back unchanged) and a second
invocation on the store left behind by the first returns the identical
breakdown. -/
theorem payroll_idempotent_no_mutation (e : Employee) (y m : ℕ)
    (s : AttendanceStore) :
    (calculate_payroll e y m s).2 = s ∧
    (calculate_payroll e y m ((calculate_payroll e y m s).2)).1
      = (calculate_payroll e y m s).1 :=
  ⟨rfl, rfl⟩

/-- C3 counterexample, refuting both parts of the claim as stated.
First, the emitted net is not always
`round(grossSalary - pfContribution - professionalTax, 2)` built from
the emitted (rounded) fields: on the valid input `tieEmployee` (basic
1541/176 > 0, allowances 7521/4400 ≥ 0, January 2025, one event per
date) the prorated PF is exactly 1.005, so the code (which subtracts
the PF before rounding it) emits net 9.00 while the claimed formula
gives round(10.01 - 1.00 - 0, 2) = 9.01. Second, no valid input at
all makes the net salary negative: the tax slabs start only above
basic 10000, and even half a day attended out of at most 23 working
days keeps the prorated gross above PF + tax. -/
theorem net_salary_claim_false :
    (calculate_payroll tieEmployee 2025 1 januaryPresence22).1.net_salary = 9 ∧
    roundTo 2
        ((calculate_payroll tieEmployee 2025 1 januaryPresence22).1.gross_salary
          - (calculate_payroll tieEmployee 2025 1 januaryPresence22).1.pf_contribution
          - (calculate_payroll tieEmployee 2025 1 januaryPresence22).1.professional_tax)
      = 901/100 ∧
    0 < tieEmployee.basic_salary ∧ 0 ≤ tieEmployee.allowances ∧
    List.Pairwise (fun r1 r2 => r1.date ≠ r2.date) januaryPresence22 ∧
    ¬ ∃ (e : Employee) (y m : ℕ) (db : AttendanceStore),
        0 < e.basic_salary ∧ 0 ≤ e.allowances ∧ 1 ≤ m ∧ m ≤ 12 ∧
        List.Pairwise (fun r1 r2 => r1.date ≠ r2.date) db ∧
        (calculate_payroll e y m db).1.net_salary < 0 := by
  refine ⟨?_, ?_, by norm_num [tieEmployee], by norm_num [tieEmployee],
    by decide, ?_⟩
  · have hwd : get_working_days 2025 1 = 23 := by decide
    norm_num [calculate_payroll, get_attended_days, query_attendance,
      tieEmployee, januaryPresence22, attendanceInMonth, List.range_succ,
      CalDate.ble, daysInMonth, isLeapYear, hwd, apply_attendance_adjustment,
      calculate_professional_tax, roundTo, rnd, fract_eq]
  · have hwd : get_working_days 2025 1 = 23 := by decide
    norm_num [calculate_payroll, get_attended_days, query_attendance,
      tieEmployee, januaryPresence22, attendanceInMonth, List.range_succ,
      CalDate.ble, daysInMonth, isLeapYear, hwd, apply_attendance_adjustment,
      calculate_professional_tax, roundTo, rnd, fract_eq]
  · rintro ⟨e, y, m, db, hb, ha, hm1, hm2, -, hneg⟩
    exact absurd hneg (not_lt.mpr (net_nonneg e y m db hb ha hm1 hm2))

/-- C3 (amended): the emitted net salary is
`round(grossSalary - adjustedPF - professionalTax, 2)` — built from
the emitted (already 2-decimal) gross and tax and the **pre-rounding**
prorated PF (the subtrahend the code actually uses; by
`net_salary_claim_false` it differs from the emitted rounded
`pf_contribution` at half-cent ties) — with no clamping applied;
however, on every valid input the result is never negative. -/
theorem net_salary_formula_and_nonneg (e : Employee) (y m : ℕ)
    (db : AttendanceStore) (hb : 0 < e.basic_salary)
    (ha : 0 ≤ e.allowances) (hm1 : 1 ≤ m) (hm2 : m ≤ 12) :
    (calculate_payroll e y m db).1.net_salary
      = roundTo 2
          ((calculate_payroll e y m db).1.gross_salary
            - e.basic_salary
                * ((get_attended_days e.id y m db).1 / (get_working_days y m : ℚ))
                * (12/100)
            - (calculate_payroll e y m db).1.professional_tax) ∧
    0 ≤ (calculate_payroll e y m db).1.net_salary :=
  ⟨net_formula e y m db hm1 hm2, net_nonneg e y m db hb ha hm1 hm2⟩

/-- C3 witness: the amended statement at the concrete January 2025
example. -/
theorem net_salary_formula_and_nonneg_witness :
    0 ≤ (calculate_payroll exampleEmployee 2025 1 januaryPresence22).1.net_salary :=
  (net_salary_formula_and_nonneg exampleEmployee 2025 1 januaryPresence22
    (by norm_num [exampleEmployee]) (by norm_num [exampleEmployee])
    (by norm_num) (by norm_num)).2

/-- C4: whenever the attendance rows of the month sum to 0 attended
days, the emitted gross, PF, professional tax (whatever the salary
slab) and net are all 0. -/
theorem zero_attendance_zeroes_payroll (e : Employee) (y m : ℕ)
    (db : AttendanceStore) (h : (get_attended_days e.id y m db).1 = 0) :
    (calculate_payroll e y m db).1.gross_salary = 0 ∧
    (calculate_payroll e y m db).1.pf_contribution = 0 ∧
    (calculate_payroll e y m db).1.professional_tax = 0 ∧
    (calculate_payroll e y m db).1.net_salary = 0 := by
  rw [payroll_gross_eq, payroll_pf_eq, payroll_tax_eq, payroll_net_eq, h]
  rw [if_neg (lt_irrefl (0:ℚ))]
  unfold apply_attendance_adjustment
  split_ifs <;> norm_num [roundTo_zero]

/-- C4 witness: basic 50000 (the top tax slab) with an Absent-only
store still produces the all-zero breakdown. -/
theorem zero_attendance_zeroes_payroll_witness :
    (calculate_payroll ⟨2, 50000, 0⟩ 2025 1 absentOnlyStore).1.gross_salary = 0 ∧
    (calculate_payroll ⟨2, 50000, 0⟩ 2025 1 absentOnlyStore).1.pf_contribution = 0 ∧
    (calculate_payroll ⟨2, 50000, 0⟩ 2025 1 absentOnlyStore).1.professional_tax = 0 ∧
    (calculate_payroll ⟨2, 50000, 0⟩ 2025 1 absentOnlyStore).1.net_salary = 0 :=
  zero_attendance_zeroes_payroll ⟨2, 50000, 0⟩ 2025 1 absentOnlyStore
    (by norm_num [get_attended_days, query_attendance, absentOnlyStore,
      attendanceInMonth, CalDate.ble, daysInMonth, isLeapYear])

/-- C5: the professional tax emitted by `calculate_payroll` is the
stepper applied to the full, unadjusted basic salary whenever any day
was attended (independent of the attendance ratio), and is replaced by
0 exactly when attendedDays = 0. -/
theorem prof_tax_unadjusted (e : Employee) (y m : ℕ) (db : AttendanceStore) :
    (0 < (get_attended_days e.id y m db).1 →
      (calculate_payroll e y m db).1.professional_tax
        = calculate_professional_tax e.basic_salary) ∧
    ((get_attended_days e.id y m db).1 = 0 →
      (calculate_payroll e y m db).1.professional_tax = 0) := by
  constructor
  · intro h
    rw [payroll_tax_eq, if_pos h, roundTo2_of_tax]
  · intro h
    rw [payroll_tax_eq, h, if_neg (lt_irrefl (0:ℚ)), roundTo_zero]

/-- C5 witness: in the January 2025 example (22 attended days) the
emitted tax is the stepper of the unadjusted basic salary. -/
theorem prof_tax_unadjusted_witness :
    (calculate_payroll exampleEmployee 2025 1 januaryPresence22).1.professional_tax
      = calculate_professional_tax exampleEmployee.basic_salary :=
  (prof_tax_unadjusted exampleEmployee 2025 1 januaryPresence22).1
    (by norm_num [get_attended_days, query_attendance, januaryPresence22,
      exampleEmployee, attendanceInMonth, List.range_succ, CalDate.ble,
      daysInMonth, isLeapYear])

/-- C7: attendedDays is the weighted sum (Present 1, HalfDay 0.5,
Absent 0) over exactly the stored events of the employee falling in
the `[first day, last day]` window of the month, and it is invariant
under any permutation of the store. -/
theorem attended_days_spec (eid y m : ℕ) (db dbp : AttendanceStore) :
    (get_attended_days eid y m db).1
      = ((db.filter (attendanceInMonth eid y m)).map
          (fun r => statusWeight r.status)).sum ∧
    (db.Perm dbp →
      (get_attended_days eid y m db).1 = (get_attended_days eid y m dbp).1) :=
  ⟨get_attended_days_eq eid y m db, attended_perm eid y m db dbp⟩

/-- C7 witness: swapping the two rows of a concrete store leaves
attendedDays unchanged. -/
theorem attended_days_spec_witness :
    (get_attended_days 1 2025 1 permStoreA).1
      = (get_attended_days 1 2025 1 permStoreB).1 :=
  (attended_days_spec 1 2025 1 permStoreA permStoreB).2
    (List.Perm.swap _ _ _)

/-- C9: `validate_payroll_data` rejects exactly the inputs with
basic ≤ 0 or allowances < 0, with a non-empty message, and accepts
everything else as `(True, "")`; `calculate_payroll` itself performs
no such guard and silently computes on a negative basic salary. -/
theorem validate_payroll_data_spec (b a : ℚ) :
    ((validate_payroll_data b a).1 = false ↔ (b ≤ 0 ∨ a < 0)) ∧
    ((b ≤ 0 ∨ a < 0) → (validate_payroll_data b a).2 ≠ "") ∧
    (0 < b → 0 ≤ a → validate_payroll_data b a = (true, "")) ∧
    (calculate_payroll ⟨3, -1000, 2000⟩ 2025 1 []).1.basic_salary = -1000 := by
  refine ⟨⟨?_, ?_⟩, ?_, ?_, ?_⟩
  · intro hf
    unfold validate_payroll_data at hf
    split_ifs at hf with h1 h2 h3
    · left; linarith
    · right; exact h2
    · left; exact le_of_eq h3
  · intro hor
    unfold validate_payroll_data
    split_ifs with h1 h2 h3
    · rfl
    · rfl
    · rfl
    · exfalso
      rcases hor with h | h
      · exact h1 (lt_of_le_of_ne h h3)
      · exact h2 h
  · intro hor
    unfold validate_payroll_data
    split_ifs with h1 h2 h3
    · simp
    · simp
    · simp
    · exfalso
      rcases hor with h | h
      · exact h1 (lt_of_le_of_ne h h3)
      · exact h2 h
  · intro hbpos hann
    unfold validate_payroll_data
    rw [if_neg (by linarith), if_neg (by linarith), if_neg (ne_of_gt hbpos)]
  · show roundTo 2 (-1000 : ℚ) = -1000
    have h := roundTo_intCast_mul 2 (-100000)
    norm_num at h
    exact h

/-- C9 witness: the validator accepts basic 30000 with allowances
5000. -/
theorem validate_payroll_data_spec_witness :
    validate_payroll_data 30000 5000 = (true, "") :=
  (validate_payroll_data_spec 30000 5000).2.2.1 (by norm_num) (by norm_num)

/-- C10: attendance events are summed over every date of the month —
weekends included — while workingDays counts only weekdays, so full
calendar presence in February 2025 (28 events, 20 working days) yields
attendance ratio 1.4 > 1 and a gross salary strictly above
basic + allowances. -/
theorem attendance_can_exceed_working_days :
    (calculate_payroll exampleEmployee 2025 2 februaryPresence28).1.working_days = 20 ∧
    (calculate_payroll exampleEmployee 2025 2 februaryPresence28).1.attended_days = 28 ∧
    PayrollBreakdown.attendance_ratio
        (calculate_payroll exampleEmployee 2025 2 februaryPresence28).1 = 7/5 ∧
    1 < PayrollBreakdown.attendance_ratio
        (calculate_payroll exampleEmployee 2025 2 februaryPresence28).1 ∧
    (calculate_payroll exampleEmployee 2025 2 februaryPresence28).1.gross_salary
      = 49000 ∧
    exampleEmployee.basic_salary + exampleEmployee.allowances
      < (calculate_payroll exampleEmployee 2025 2 februaryPresence28).1.gross_salary := by
  have hwd : get_working_days 2025 2 = 20 := by decide
  norm_num [calculate_payroll, get_attended_days, query_attendance,
    exampleEmployee, februaryPresence28, attendanceInMonth, List.range_succ,
    CalDate.ble, daysInMonth, isLeapYear, hwd, apply_attendance_adjustment,
    calculate_professional_tax, roundTo, rnd, fract_eq]
